import Mathlib

/-!
Verification of the Hit-and-Run (H&R) obligation tracker plugin
(`plugins.v2/hitandrun/__init__.py`).

The shallow embedding below translates the plugin's core reconciliation and
state-machine logic into Lean:
* Python dicts keyed by torrent hash become association lists
  (`List (String × _)`) with lookup/assignment/erase operations mirroring
  Python dict semantics (assignment replaces in place or appends; `pop`/`del`
  removes; lookup finds the entry).
* Python floats (timestamps, ratios, durations) become rationals (`ℚ`).
* `Optional[float]` fields become `Option ℚ`; Python truthiness of such a
  field (`if x:`) is `none`-or-zero falsy, modelled by `truthyTime`.
* Fallible code paths (an `AttributeError` raised when
  `__convert_torrent_info_to_task` returns `None` and the sync loop then
  dereferences it) are modelled with `Option`: `none` is an aborted run.
Side effects that do not touch the task store (logging, notification
messages, client tag mutations, persistence writes) are dropped; where a
function's result records that such an effect was attempted, a boolean field
says so.
-/

/-- H&R obligation status enum (`HNRStatus` in `entities.py`); the six states
named by the specification. -/
inductive HNRStatus where
  | PENDING
  | UNRESTRICTED
  | IN_PROGRESS
  | COMPLIANT
  | OVERDUE
  | NEEDS_SEEDING
deriving DecidableEq, Repr

/-- A tracked torrent task (`TorrentTask` in `entities.py`), restricted to the
fields the reconciliation logic reads or writes.  `entities.py` is not part of
the sources under verification; fields and their optionality are modelled from
the specification's data model (§3) and from how `__init__.py` uses them.
Source field `ratio` is named `ratio_val` here and source field `hr_ratio` is
named `hr_ratio_val` (plain renamings).  `deadline_time` is the derived
deadline timestamp (spec: creation time + deadline-days × 86400, immutable once
set); it is carried as a stored value because the code only ever compares
against it. -/
structure TorrentTask where
  hash : String
  site : Nat
  site_name : String
  title : String
  size : ℚ
  time : ℚ
  hit_and_run : Bool
  hr_status : HNRStatus
  hr_ratio_val : ℚ
  hr_duration : Option ℚ
  hr_deadline_days : ℚ
  deadline_time : ℚ
  downloaded : ℚ
  uploaded : ℚ
  ratio_val : Option ℚ
  seeding_time : Option ℚ
  deleted : Bool
  deleted_time : Option ℚ
  hr_met_time : Option ℚ
deriving DecidableEq, Repr

/-- A torrent as reported by the download client, together with the values the
torrent helper extracts from it (`get_torrent_hashes`, `get_torrent_tags`,
`get_torrent_info`, `get_site_by_torrent`; `helper.py` is not under the
verified sources, so its accessors are modelled as record fields).
Source info key `ratio` is named `ratio_val` here. -/
structure Torrent where
  hash : String
  tags : List String
  title : String
  total_size : ℚ
  add_on : ℚ
  downloaded : ℚ
  uploaded : ℚ
  ratio_val : ℚ
  seeding_time : ℚ
  site_id : Nat
  site_name : Option String
deriving DecidableEq, Repr

/-- Modelled from the spec: `TorrentHistory` (`entities.py`, not under the
verified sources) is the append-only record of the original ingestion event
per hash (§3): the original descriptor fields of the torrent. -/
structure TorrentHistory where
  hash : String
  site : Nat
  site_name : String
  title : String
  size : ℚ
  time : ℚ
deriving DecidableEq, Repr

/-- A per-site effective configuration as returned by
`HNRConfig.get_site_config` (in `hnrconfig.py`, not under the verified
sources): the resolved {forced flag, required ratio, required duration,
deadline days, additional seed time} after global-default substitution (§4.1).
Source field `hr_ratio` is named `hr_ratio_val` here.  `additional_seed_time`
stays optional: `__update_hr_status` reads it as
`site_config.additional_seed_time or 0`. -/
structure SiteConfig where
  hr_active : Bool
  hr_ratio_val : ℚ
  hr_duration : ℚ
  hr_deadline_days : ℚ
  additional_seed_time : Option ℚ
deriving DecidableEq, Repr

/-- The TaskStore: Python dict mapping torrent hash → task. -/
abbrev Store := List (String × TorrentTask)

/-- The three diff lists accumulated by
`__update_seeding_tasks_based_on_tags`. -/
structure SyncDiffs where
  added_tasks : List TorrentTask
  reset_tasks : List TorrentTask
  removed_tasks : List TorrentTask
deriving DecidableEq, Repr

/-- No diffs yet (the three empty lists initialised at the top of
`__update_seeding_tasks_based_on_tags`). -/
def emptyDiffs : SyncDiffs := ⟨[], [], []⟩

/-- Python dict lookup (`d[h]` / `d.get(h)`): first entry with the key. -/
def dictLookup {α : Type} : List (String × α) → String → Option α
  | [], _ => none
  | (k, v) :: rest, h => if k = h then some v else dictLookup rest h

/-- Python dict assignment `d[h] = v`: replace the value at an existing key in
place, else append a new entry. -/
def dictSet {α : Type} : List (String × α) → String → α → List (String × α)
  | [], h, v => [(h, v)]
  | (k, w) :: rest, h, v =>
    if k = h then (k, v) :: rest else (k, w) :: dictSet rest h v

/-- Python dict removal (`d.pop(h)` / `del d[h]`): drop the entry with the
key (a dict never holds a duplicate key). -/
def dictErase {α : Type} : List (String × α) → String → List (String × α)
  | [], _ => []
  | (k, w) :: rest, h =>
    if k = h then dictErase rest h else (k, w) :: dictErase rest h

/-- Python `list(d.keys())`. -/
def dictKeys {α : Type} (d : List (String × α)) : List String :=
  d.map Prod.fst

/-- Python `x or 0` on an optional number (`site_config.additional_seed_time
or 0` in `__update_hr_status`): `None` (and `0.0`, which is its own
replacement) become `0`. -/
def pyOrZero : Option ℚ → ℚ
  | none => 0
  | some x => x

/-- Truthiness of an optional timestamp (`if torrent_task.hr_met_time:` in
`__auto_cleanup`): `None` and `0.0` are falsy. -/
def truthyTime : Option ℚ → Bool
  | none => false
  | some x => if x = 0 then false else true

/-- `__meets_hr_requirements` (source lines 1478-1486): seeding time exceeds
`(hr_duration + additional_seed_time) * 3600` (both operands non-`None`), or
the live share ratio exceeds the required ratio. -/
def meetsHrRequirements (torrent_task : TorrentTask) (additional_seed_time : ℚ)
    (required_ratio_val : ℚ) : Bool :=
  let seeding_time_ok :=
    match torrent_task.seeding_time, torrent_task.hr_duration with
    | some st, some dur => decide (st > (dur + additional_seed_time) * 3600)
    | _, _ => false
  let ratio_ok :=
    match torrent_task.ratio_val with
    | some r => decide (r > required_ratio_val)
    | none => false
  seeding_time_ok || ratio_ok

/-- `__update_hr_status` (source lines 1420-1459): per-cycle evaluation of one
task.  Non-obligation tasks and tasks whose status is not `IN_PROGRESS` are
returned untouched.  Otherwise: compliant when `__meets_hr_requirements`
(recording `hr_met_time = now`; the client-tag removal and notification side
effects are dropped), else overdue past the deadline, else needs-seeding when
marked deleted, else unchanged.  `site_config` is the per-site configuration
resolved from the task's site name at the call site. -/
def updateHrStatus (now : ℚ) (site_config : SiteConfig) (torrent_task : TorrentTask) :
    TorrentTask :=
  if torrent_task.hit_and_run = false then torrent_task
  else if torrent_task.hr_status ≠ HNRStatus.IN_PROGRESS then torrent_task
  else
    let additional_seed_time := pyOrZero site_config.additional_seed_time
    if meetsHrRequirements torrent_task additional_seed_time torrent_task.hr_ratio_val then
      { torrent_task with hr_status := HNRStatus.COMPLIANT, hr_met_time := some now }
    else if now > torrent_task.deadline_time then
      { torrent_task with hr_status := HNRStatus.OVERDUE }
    else if torrent_task.deleted then
      { torrent_task with hr_status := HNRStatus.NEEDS_SEEDING }
    else torrent_task

/-- The per-cycle status-evaluation loop in `check` (source lines 1067-1072):
every task in the store is run through `__update_hr_status`.  `scOf` resolves
a site name to its effective site configuration (`__get_site_config`). -/
def updateHrStatusAll (now : ℚ) (scOf : String → SiteConfig) (torrent_tasks : Store) :
    Store :=
  torrent_tasks.map (fun kv => (kv.1, updateHrStatus now (scOf kv.2.site_name) kv.2))

/-- `__init_hr_status` (source lines 1488-1505): a site with the forced flag
(`hr_active`) makes the task an obligation; an obligation task copies the
resolved ratio / duration / deadline-days and becomes `IN_PROGRESS`, any other
task becomes `UNRESTRICTED`. -/
def initHrStatus (site_config : SiteConfig) (torrent_task : TorrentTask) : TorrentTask :=
  let torrent_task :=
    if site_config.hr_active then { torrent_task with hit_and_run := true } else torrent_task
  if torrent_task.hit_and_run then
    { torrent_task with
        hr_ratio_val := site_config.hr_ratio_val,
        hr_duration := some site_config.hr_duration,
        hr_deadline_days := site_config.hr_deadline_days,
        hr_status := HNRStatus.IN_PROGRESS }
  else
    { torrent_task with hr_status := HNRStatus.UNRESTRICTED }

/-- Modelled from the spec: `TorrentTask.parse_obj(torrent_history.to_dict())`
in `__convert_torrent_info_to_task` rebuilds a task from the stored ingestion
record; fields absent from the history record take the data-model defaults of
`entities.py` (not under the verified sources): no live stats yet, not
deleted, status `PENDING` pre-classification (§3, §4.3).  The derived
`deadline_time` is irrelevant to the reconciliation logic modelled here and is
seeded with the creation time. -/
def torrentTaskOfHistory (torrent_history : TorrentHistory) : TorrentTask :=
  { hash := torrent_history.hash
    site := torrent_history.site
    site_name := torrent_history.site_name
    title := torrent_history.title
    size := torrent_history.size
    time := torrent_history.time
    hit_and_run := false
    hr_status := HNRStatus.PENDING
    hr_ratio_val := 0
    hr_duration := none
    hr_deadline_days := 0
    deadline_time := torrent_history.time
    downloaded := 0
    uploaded := 0
    ratio_val := none
    seeding_time := none
    deleted := false
    deleted_time := none
    hr_met_time := none }

/-- `__convert_torrent_info_to_task` (source lines 1644-1685): reconstruct a
task for an externally tagged torrent, from the `TorrentHistory` record when
one exists, else from the live torrent's own metadata plus site lookup
(`None` when the torrent has no hash, or no history exists and the site cannot
be resolved).  The result is forced to `hit_and_run = True` and initialised
via `__init_hr_status`. -/
def convertTorrentInfoToTask (histories : List (String × TorrentHistory))
    (scOf : String → SiteConfig) (torrent : Torrent) : Option TorrentTask :=
  if torrent.hash = "" then none
  else
    let torrent_task? : Option TorrentTask :=
      match dictLookup histories torrent.hash with
      | some torrent_history => some (torrentTaskOfHistory torrent_history)
      | none =>
        match torrent.site_name with
        | none => none
        | some sn =>
          some
            { hash := torrent.hash
              site := torrent.site_id
              site_name := sn
              title := torrent.title
              size := torrent.total_size
              time := torrent.add_on
              hit_and_run := true
              hr_status := HNRStatus.PENDING
              hr_ratio_val := 0
              hr_duration := none
              hr_deadline_days := 0
              deadline_time := torrent.add_on
              downloaded := 0
              uploaded := 0
              ratio_val := none
              seeding_time := none
              deleted := false
              deleted_time := none
              hr_met_time := none }
    match torrent_task? with
    | none => none
    | some torrent_task =>
      let torrent_task := { torrent_task with hit_and_run := true }
      some (initHrStatus (scOf torrent_task.site_name) torrent_task)

/-- One iteration of the loop in `__update_seeding_tasks_based_on_tags`
(source lines 1176-1206) over an entry of `seeding_torrents_dict`.
Tagged and untracked: convert and add (a `None` conversion is stored and then
immediately dereferenced for logging, raising `AttributeError` — modelled as
an aborted run, result `none`).  Tagged and tracked: clear a stale `deleted`
flag.  Untagged and tracked: remove the entry unless it is `COMPLIANT`. -/
def syncStep (tag : String) (conv : Torrent → Option TorrentTask)
    (acc : Store × SyncDiffs) (entry : String × Torrent) : Option (Store × SyncDiffs) :=
  let store := acc.1
  let diffs := acc.2
  let torrent_hash := entry.1
  let torrent := entry.2
  if tag ∈ torrent.tags then
    match dictLookup store torrent_hash with
    | none =>
      match conv torrent with
      | some torrent_task =>
        some (dictSet store torrent_hash torrent_task,
          { diffs with added_tasks := diffs.added_tasks ++ [torrent_task] })
      | none => none
    | some torrent_task =>
      if torrent_task.deleted then
        some (dictSet store torrent_hash { torrent_task with deleted := false },
          { diffs with
              reset_tasks := diffs.reset_tasks ++ [{ torrent_task with deleted := false }] })
      else some (store, diffs)
  else
    match dictLookup store torrent_hash with
    | some torrent_task =>
      if torrent_task.hr_status = HNRStatus.COMPLIANT then some (store, diffs)
      else
        some (dictErase store torrent_hash,
          { diffs with removed_tasks := diffs.removed_tasks ++ [torrent_task] })
    | none => some (store, diffs)

/-- The loop of `__update_seeding_tasks_based_on_tags` over the client
snapshot dictionary. -/
def syncLoop (tag : String) (conv : Torrent → Option TorrentTask) :
    List (String × Torrent) → Store × SyncDiffs → Option (Store × SyncDiffs)
  | [], acc => some acc
  | entry :: rest, acc =>
    match syncStep tag conv acc entry with
    | none => none
    | some acc' => syncLoop tag conv rest acc'

/-- `__update_seeding_tasks_based_on_tags` (source lines 1165-1224): skipped
entirely unless the configured downloader service is qbittorrent; otherwise
the per-entry reconciliation loop above.  `tag` is the configured management
tag (`self._hnr_config.hit_and_run_tag`); the summary notifications and the
mid-cycle persistence write are side effects outside the store and are
dropped. -/
def updateSeedingTasksBasedOnTags (is_qbittorrent : Bool) (tag : String)
    (histories : List (String × TorrentHistory)) (scOf : String → SiteConfig)
    (seeding_torrents_dict : List (String × Torrent)) (torrent_tasks : Store) :
    Option (Store × SyncDiffs) :=
  if is_qbittorrent = false then some (torrent_tasks, emptyDiffs)
  else
    syncLoop tag (convertTorrentInfoToTask histories scOf) seeding_torrents_dict
      (torrent_tasks, emptyDiffs)

/-- The per-key outcome of one tag-reconciliation run: what the store maps a
snapshot key to afterwards, as a function of what it mapped it to before. -/
def syncKeyResult (tag : String) (conv : Torrent → Option TorrentTask)
    (old : Option TorrentTask) (torrent : Torrent) : Option TorrentTask :=
  if tag ∈ torrent.tags then
    match old with
    | none => conv torrent
    | some t => if t.deleted then some { t with deleted := false } else some t
  else
    match old with
    | some t => if t.hr_status = HNRStatus.COMPLIANT then some t else none
    | none => none

/-- `__update_torrent_tasks_state` (source lines 1148-1163): refresh each
tracked task's live stats from the client torrent with the same hash. -/
def updateTorrentTasksState (torrents : List Torrent) (torrent_tasks : Store) : Store :=
  torrents.foldl
    (fun store torrent =>
      match dictLookup store torrent.hash with
      | none => store
      | some torrent_task =>
        dictSet store torrent.hash
          { torrent_task with
              downloaded := torrent.downloaded
              uploaded := torrent.uploaded
              ratio_val := some torrent.ratio_val
              seeding_time := some torrent.seeding_time })
    torrent_tasks

/-- The per-hash mutation of `__update_undeleted_torrents_missing_in_downloader`
(source lines 1241-1246): mark the task deleted and record the deleted
timestamp. -/
def markDeletedStep (now : ℚ) (store : Store) (h : String) : Store :=
  match dictLookup store h with
  | none => store
  | some t => dictSet store h { t with deleted := true, deleted_time := some now }

/-- `__update_undeleted_torrents_missing_in_downloader` (source lines
1226-1250): every check hash absent from the given torrents and not yet
marked deleted gets `deleted = True` and a deleted timestamp (`time.time()`,
passed as `now`; the notification side effect is dropped).  The call site
passes `torrent_check_hashes = list(torrent_tasks.keys())`, so the lookup
inside the filter always succeeds there (a missing key would raise `KeyError`
in Python; such a hash is skipped here). -/
def updateUndeletedTorrentsMissingInDownloader (now : ℚ) (torrent_tasks : Store)
    (torrent_check_hashes : List String) (torrents : List Torrent) : Store :=
  let torrent_all_hashes := torrents.map Torrent.hash
  let missing_hashes := torrent_check_hashes.filter (fun h => h ∉ torrent_all_hashes)
  let undeleted_hashes := missing_hashes.filter (fun h =>
    match dictLookup torrent_tasks h with
    | some t => !t.deleted
    | none => false)
  undeleted_hashes.foldl (markDeletedStep now) torrent_tasks

/-- The `check_torrents` list built in `check` (source lines 1057-1058): the
snapshot torrents whose hash is among the check hashes. -/
def checkTorrentsOf (seeding_torrents_dict : List (String × Torrent))
    (torrent_check_hashes : List String) : List Torrent :=
  torrent_check_hashes.filterMap (fun h => dictLookup seeding_torrents_dict h)

/-- The snapshot dictionary built in `check` (source lines 1040-1043):
`{get_torrent_hashes(t): t}` over the client's full torrent list. -/
def buildSnapDict (seeding_torrents : List Torrent) : List (String × Torrent) :=
  seeding_torrents.map (fun t => (t.hash, t))

/-- The removal test of `__auto_cleanup` (source lines 1102-1139) for one
task: the four scenarios, checked in order (set membership and the final
delete pass collapse to this per-task test because each hash is examined
once). -/
def cleanupMatch (cleanup_threshold_seconds now : ℚ) (torrent_task : TorrentTask) : Bool :=
  if torrent_task.hr_status = HNRStatus.COMPLIANT ∧ truthyTime torrent_task.hr_met_time = true
      ∧ now - (torrent_task.hr_met_time.getD 0) > cleanup_threshold_seconds then true
  else if torrent_task.hr_status = HNRStatus.COMPLIANT
      ∧ truthyTime torrent_task.hr_met_time = false then true
  else if torrent_task.deleted = true ∧ truthyTime torrent_task.deleted_time = true
      ∧ now - (torrent_task.deleted_time.getD 0) > cleanup_threshold_seconds then true
  else if torrent_task.deleted = true ∧ truthyTime torrent_task.deleted_time = false then true
  else false

/-- `__auto_cleanup` (source lines 1084-1144): disabled when the configured
retention window (`auto_cleanup_days`) is ≤ 0, else drop every task matching
one of the four scenarios, with the window converted to seconds. -/
def autoCleanup (auto_cleanup_days now : ℚ) (torrent_tasks : Store) : Store :=
  if auto_cleanup_days ≤ 0 then torrent_tasks
  else
    let cleanup_threshold_seconds := auto_cleanup_days * 86400
    torrent_tasks.filter (fun kv => !(cleanupMatch cleanup_threshold_seconds now kv.2))

/-- The removal condition of claim C6 as the specification words it (for
comparison with the code's behaviour): "set" read as the field carrying a
value, "unset" as carrying none.  The window is in days, timestamps and `now`
in seconds. -/
def specCleanupCond (window_days now : ℚ) (t : TorrentTask) : Prop :=
  (t.hr_status = HNRStatus.COMPLIANT ∧
    ∃ m, t.hr_met_time = some m ∧ now - m > window_days * 86400) ∨
  (t.hr_status = HNRStatus.COMPLIANT ∧ t.hr_met_time = none) ∨
  (t.deleted = true ∧
    ∃ dt, t.deleted_time = some dt ∧ now - dt > window_days * 86400) ∨
  (t.deleted = true ∧ t.deleted_time = none)

/-- The observable outcome of one ingestion event: the resulting TaskStore,
whether a `TorrentHistory` record was persisted, whether the task was stored,
and whether the management tag was added on the client. -/
structure IngestOutcome where
  store : Store
  history_saved : Bool
  task_stored : Bool
  tag_added : Bool
deriving DecidableEq, Repr

/-- `__process_torrent_task` (source lines 1395-1418): skip when the task's
site is not in the enabled-site set; otherwise initialise the obligation
state, skip when no obligation applies, else store the task
(`__update_torrent_tasks`, a dict update on the persisted store) and add the
management tag on the client (`__set_hit_and_run_tag`, a best-effort side
effect recorded here as a boolean).  Returns (store, stored?, tagged?). -/
def processTorrentTask (sites : List Nat) (scOf : String → SiteConfig)
    (store : Store) (torrent_task : TorrentTask) : Store × Bool × Bool :=
  if torrent_task.site ∉ sites then (store, false, false)
  else
    let torrent_task := initHrStatus (scOf torrent_task.site_name) torrent_task
    if torrent_task.hit_and_run = false then (store, false, false)
    else (dictSet store torrent_task.hash torrent_task, true, true)

/-- `__process_event` (source lines 1376-1393): reject events lacking
hash or descriptor data, or whose torrent cannot be found in the downloader;
otherwise persist the `TorrentHistory` record (`__save_and_cleanup_downloads`,
unconditionally) and run `__process_torrent_task`.  The torrent task built
from the event payload (`__create_torrent_task`, pure data marshalling) is
taken as an argument. -/
def processEvent (torrent_hash_ok torrent_data_ok torrent_found : Bool)
    (sites : List Nat) (scOf : String → SiteConfig) (store : Store)
    (torrent_task : TorrentTask) : IngestOutcome :=
  if torrent_hash_ok = false ∨ torrent_data_ok = false then ⟨store, false, false, false⟩
  else if torrent_found = false then ⟨store, false, false, false⟩
  else
    let r := processTorrentTask sites scOf store torrent_task
    ⟨r.1, true, r.2.1, r.2.2⟩

/-- The validation prefix of the download-added / brushflow event handlers
(source lines 1300-1361): events from a downloader other than the monitored
one, or lacking a hash or descriptor, are dropped before `__process_event`
runs. -/
def handleDownloadAddedEvent (monitored torrent_hash_ok torrent_data_ok torrent_found : Bool)
    (sites : List Nat) (scOf : String → SiteConfig) (store : Store)
    (torrent_task : TorrentTask) : IngestOutcome :=
  if monitored = false then ⟨store, false, false, false⟩
  else processEvent torrent_hash_ok torrent_data_ok torrent_found sites scOf store torrent_task

/-- The configuration fields `__validate_config` examines (`HNRConfig` in
`hnrconfig.py`): the enable and run-once flags, the configured downloader
(empty string = unset) and the global duration / deadline-days / ratio.
Source field `hr_ratio` is named `hr_ratio_val`. -/
structure HNRConfigModel where
  enabled : Bool
  onlyonce : Bool
  downloader : String
  hr_duration : ℚ
  hr_deadline_days : ℚ
  hr_ratio_val : ℚ
deriving DecidableEq, Repr

/-- `__validate_config` (source lines 1712-1732): validation is skipped (and
succeeds) unless the engine is enabled or asked to run once; then the
downloader must be set and duration, deadline-days and ratio must each be
> 0.  Returns (ok, reason). -/
def validateConfig (config : HNRConfigModel) : Bool × String :=
  if config.enabled = false ∧ config.onlyonce = false then
    (true, "plugin not enabled, no validation required")
  else if config.downloader = "" then (false, "downloader must not be empty")
  else if config.hr_duration ≤ 0 then (false, "H&R duration must be greater than 0")
  else if config.hr_deadline_days ≤ 0 then
    (false, "H&R deadline days must be greater than 0")
  else if config.hr_ratio_val ≤ 0 then (false, "H&R ratio must be greater than 0")
  else (true, "all configuration items are valid")

/-- `__validate_and_fix_config` (source lines 1734-1770) restricted to its
effect on the runtime configuration `self._hnr_config`: with no incoming
config nothing changes and the result is failure with an empty reason; with a
config that validates, it becomes the runtime configuration (the enabled-site
filtering does not affect the fields modelled here); on a validation failure
— and likewise on a parse exception, which is caught — the runtime
configuration is set to `None`.  Returns (new runtime config, ok, reason). -/
def validateAndFixConfig (hnr_config : Option HNRConfigModel)
    (config : Option HNRConfigModel) : Option HNRConfigModel × Bool × String :=
  match config with
  | none => (hnr_config, false, "")
  | some c =>
    let vr := validateConfig c
    if vr.1 = true then (some c, true, "")
    else (none, false, vr.2)

/-- The enable flags of the saved (persisted) plugin configuration dict. -/
structure SavedFlags where
  enabled : Bool
  onlyonce : Bool
deriving DecidableEq, Repr

/-- `__update_config_if_error` (source lines 1772-1780): when the saved
configuration has the enable or run-once flag set, both are cleared and an
operator-facing alert is issued (`__log_and_notify_error`); the configuration
is then saved either way.  Returns (saved flags, alerted?). -/
def updateConfigIfError (config : Option SavedFlags) : Option SavedFlags × Bool :=
  match config with
  | none => (none, false)
  | some cfg =>
    if cfg.enabled = true ∨ cfg.onlyonce = true then (some ⟨false, false⟩, true)
    else (some cfg, false)

/-! ### Sample values used by witnesses and counterexamples -/

/-- A concrete in-progress obligation task: 101 hours seeded (363600 s)
against a 100-hour requirement, live ratio 0.1 against a required 5.0,
deadline at 1209600 (14 days from creation time 0). -/
def sampleTaskInProgress : TorrentTask :=
  { hash := "h1", site := 1, site_name := "A", title := "t", size := 1, time := 0,
    hit_and_run := true, hr_status := HNRStatus.IN_PROGRESS, hr_ratio_val := 5,
    hr_duration := some 100, hr_deadline_days := 14, deadline_time := 1209600,
    downloaded := 0, uploaded := 0, ratio_val := some 0,
    seeding_time := some 363600, deleted := false, deleted_time := none,
    hr_met_time := none }

/-- A concrete effective site configuration. -/
def sampleSiteConfig : SiteConfig :=
  { hr_active := false, hr_ratio_val := 5, hr_duration := 100, hr_deadline_days := 14,
    additional_seed_time := some 0 }

/-- A concrete snapshot torrent carrying no tags. -/
def sampleTorrentNoTag : Torrent :=
  { hash := "h1", tags := [], title := "t", total_size := 1, add_on := 0,
    downloaded := 0, uploaded := 0, ratio_val := 0, seeding_time := 0, site_id := 1,
    site_name := some "A" }

/-- The same torrent carrying the management tag "HR". -/
def sampleTorrentTag : Torrent := { sampleTorrentNoTag with tags := ["HR"] }

/-- A COMPLIANT task whose `hr_met_time` is the zero timestamp. -/
def sampleTaskMetZero : TorrentTask :=
  { sampleTaskInProgress with hr_status := HNRStatus.COMPLIANT, hr_met_time := some 0 }

/-- A COMPLIANT task with `hr_met_time` = 1. -/
def sampleTaskMetOne : TorrentTask :=
  { sampleTaskInProgress with hr_status := HNRStatus.COMPLIANT, hr_met_time := some 1 }

/-- A configuration that passes validation. -/
def sampleGoodConfig : HNRConfigModel :=
  { enabled := true, onlyonce := false, downloader := "qbittorrent",
    hr_duration := 120, hr_deadline_days := 14, hr_ratio_val := 1 }

/-- The same configuration with the downloader cleared: it fails validation. -/
def sampleBadConfig : HNRConfigModel :=
  { sampleGoodConfig with downloader := "" }

/-- The task that tag reconciliation reconstructs for `sampleTorrentTag` (no
history record, site resolved, obligation initialised from
`sampleSiteConfig`). -/
def sampleAddedTask : TorrentTask :=
  { hash := "h1", site := 1, site_name := "A", title := "t", size := 1, time := 0,
    hit_and_run := true, hr_status := HNRStatus.IN_PROGRESS, hr_ratio_val := 5,
    hr_duration := some 100, hr_deadline_days := 14, deadline_time := 0,
    downloaded := 0, uploaded := 0, ratio_val := none, seeding_time := none,
    deleted := false, deleted_time := none, hr_met_time := none }

/-- The store produced by the first reconciliation run of the C4 witness. -/
def sampleC4Store : Store := [("h1", sampleAddedTask)]

theorem dictLookup_set_self {α : Type} (d : List (String × α)) (h : String) (v : α) :
    dictLookup (dictSet d h v) h = some v := by
  induction d with
  | nil => simp [dictSet, dictLookup]
  | cons kv rest ih =>
    obtain ⟨k, w⟩ := kv
    by_cases hk : k = h
    · simp [dictSet, hk, dictLookup]
    · simp [dictSet, hk, dictLookup, ih]

theorem dictLookup_set_ne {α : Type} (d : List (String × α)) (h h' : String) (v : α)
    (hne : h' ≠ h) : dictLookup (dictSet d h v) h' = dictLookup d h' := by
  induction d with
  | nil =>
    have hh : ¬ h = h' := fun hh => hne hh.symm
    simp [dictSet, dictLookup, hh]
  | cons kv rest ih =>
    obtain ⟨k, w⟩ := kv
    by_cases hk : k = h
    · have hh' : ¬ h = h' := fun hh => hne hh.symm
      simp [dictSet, hk, dictLookup, hh']
    · simp only [dictSet, if_neg hk, dictLookup]
      by_cases hk2 : k = h'
      · simp [hk2]
      · simp [hk2, ih]

theorem dictLookup_erase_self {α : Type} (d : List (String × α)) (h : String) :
    dictLookup (dictErase d h) h = none := by
  induction d with
  | nil => simp [dictErase, dictLookup]
  | cons kv rest ih =>
    obtain ⟨k, w⟩ := kv
    by_cases hk : k = h
    · simpa [dictErase, hk] using ih
    · simpa [dictErase, dictLookup, hk] using ih

theorem dictLookup_erase_ne {α : Type} (d : List (String × α)) (h h' : String)
    (hne : h' ≠ h) : dictLookup (dictErase d h) h' = dictLookup d h' := by
  induction d with
  | nil => simp [dictErase, dictLookup]
  | cons kv rest ih =>
    obtain ⟨k, w⟩ := kv
    by_cases hk : k = h
    · have hk' : ¬ k = h' := fun hh => hne (hh ▸ hk)
      simp only [dictErase, if_pos hk, dictLookup, if_neg hk']
      exact ih
    · by_cases hk2 : k = h'
      · simp [dictErase, dictLookup, hk, hk2, hne]
      · simp only [dictErase, if_neg hk, dictLookup, if_neg hk2]
        exact ih

theorem mem_dictKeys_of_lookup {α : Type} {d : List (String × α)} {h : String} {v : α}
    (hl : dictLookup d h = some v) : h ∈ dictKeys d := by
  induction d with
  | nil => simp [dictLookup] at hl
  | cons kv rest ih =>
    obtain ⟨k, w⟩ := kv
    by_cases hk : k = h
    · simp [dictKeys, hk]
    · simp only [dictLookup, if_neg hk] at hl
      simp [dictKeys] at ih ⊢
      exact Or.inr (ih hl)

theorem lookup_eq_none_of_not_mem_keys {α : Type} {d : List (String × α)} {h : String}
    (hne : h ∉ dictKeys d) : dictLookup d h = none := by
  induction d with
  | nil => simp [dictLookup]
  | cons kv rest ih =>
    obtain ⟨k, w⟩ := kv
    simp only [dictKeys, List.map_cons, List.mem_cons] at hne
    push_neg at hne
    have hk : k ≠ h := fun hh => hne.1 hh.symm
    simp only [dictLookup, if_neg hk]
    exact ih hne.2

theorem exists_pair_of_mem_dictKeys {α : Type} {d : List (String × α)} {h : String}
    (hm : h ∈ dictKeys d) : ∃ v, (h, v) ∈ d := by
  induction d with
  | nil => simp [dictKeys] at hm
  | cons kv rest ih =>
    obtain ⟨k, w⟩ := kv
    simp only [dictKeys, List.map_cons, List.mem_cons] at hm
    rcases hm with hm | hm
    · exact ⟨w, by simp [hm.symm]⟩
    · obtain ⟨v, hv⟩ := ih hm
      exact ⟨v, by simp [hv]⟩

/-! ### Claim C1 -/

/-- Claim C1: for a task whose status is `IN_PROGRESS` and whose hit-and-run
obligation applies (with live stats and required duration present), one
per-cycle evaluation step computes the new status as COMPLIANT when
`seeding_time > (required_duration + additional_seed_time) * 3600` OR
`ratio > required_ratio` (recording `hr_met_time = now`); else OVERDUE when
`now > deadline_time`; else NEEDS_SEEDING when the task is currently marked
deleted; else the status remains `IN_PROGRESS`.  The compliance check takes
priority, and either threshold alone suffices. -/
theorem c1_status_evaluation (now : ℚ) (site_config : SiteConfig)
    (torrent_task : TorrentTask) (st r dur : ℚ)
    (hhr : torrent_task.hit_and_run = true)
    (hstat : torrent_task.hr_status = HNRStatus.IN_PROGRESS)
    (hst : torrent_task.seeding_time = some st)
    (hrv : torrent_task.ratio_val = some r)
    (hdur : torrent_task.hr_duration = some dur) :
    ((updateHrStatus now site_config torrent_task).hr_status =
      if st > (dur + pyOrZero site_config.additional_seed_time) * 3600 ∨
          r > torrent_task.hr_ratio_val then HNRStatus.COMPLIANT
      else if now > torrent_task.deadline_time then HNRStatus.OVERDUE
      else if torrent_task.deleted = true then HNRStatus.NEEDS_SEEDING
      else HNRStatus.IN_PROGRESS) ∧
    (st > (dur + pyOrZero site_config.additional_seed_time) * 3600 ∨
        r > torrent_task.hr_ratio_val →
      (updateHrStatus now site_config torrent_task).hr_met_time = some now) := by
  by_cases hc : st > (dur + pyOrZero site_config.additional_seed_time) * 3600 ∨
      r > torrent_task.hr_ratio_val
  · have hmeets : meetsHrRequirements torrent_task
        (pyOrZero site_config.additional_seed_time) torrent_task.hr_ratio_val = true := by
      rcases hc with hc1 | hc1 <;> simp [meetsHrRequirements, hst, hrv, hdur, hc1]
    constructor
    · simp [updateHrStatus, hhr, hstat, hmeets, hc]
    · intro _
      simp [updateHrStatus, hhr, hstat, hmeets]
  · have hA : ¬ (st > (dur + pyOrZero site_config.additional_seed_time) * 3600) :=
      fun a => hc (Or.inl a)
    have hB : ¬ (r > torrent_task.hr_ratio_val) := fun b => hc (Or.inr b)
    have hmeets : meetsHrRequirements torrent_task
        (pyOrZero site_config.additional_seed_time) torrent_task.hr_ratio_val = false := by
      simp [meetsHrRequirements, hst, hrv, hdur, hA, hB]
    refine ⟨?_, fun hcc => absurd hcc hc⟩
    by_cases hd : now > torrent_task.deadline_time
    · simp [updateHrStatus, hhr, hstat, hmeets, hc, hd]
    · by_cases hdel : torrent_task.deleted = true
      · simp [updateHrStatus, hhr, hstat, hmeets, hc, hd, hdel]
      · simp [updateHrStatus, hhr, hstat, hmeets, hc, hd, hdel]

/-- Witness for C1: the sample in-progress task (101 h seeded of 100 h
required, ratio 0 of 5.0 required) becomes COMPLIANT with
`hr_met_time = 50`: the duration threshold alone suffices. -/
theorem c1_status_evaluation_witness :
    (updateHrStatus 50 sampleSiteConfig sampleTaskInProgress).hr_status =
      HNRStatus.COMPLIANT ∧
    (updateHrStatus 50 sampleSiteConfig sampleTaskInProgress).hr_met_time = some 50 := by
  have h := c1_status_evaluation 50 sampleSiteConfig sampleTaskInProgress 363600 0 100
    rfl rfl rfl rfl rfl
  have hcond : (363600 : ℚ) > (100 + pyOrZero sampleSiteConfig.additional_seed_time) * 3600 ∨
      (0 : ℚ) > sampleTaskInProgress.hr_ratio_val := by
    left
    norm_num [pyOrZero, sampleSiteConfig]
  refine ⟨?_, h.2 hcond⟩
  rw [h.1, if_pos hcond]

/-! ### Claim C2 -/

/-- Claim C2: the per-cycle evaluation changes a task only when its status is
`IN_PROGRESS`: a task in any of the five other states (PENDING, UNRESTRICTED,
COMPLIANT, OVERDUE, NEEDS_SEEDING) is returned completely unchanged; in
particular OVERDUE / NEEDS_SEEDING tasks never later become COMPLIANT through
this step and a COMPLIANT task is never changed by it. -/
theorem c2_non_in_progress_sticky (now : ℚ) (site_config : SiteConfig)
    (torrent_task : TorrentTask)
    (hstat : torrent_task.hr_status = HNRStatus.PENDING ∨
      torrent_task.hr_status = HNRStatus.UNRESTRICTED ∨
      torrent_task.hr_status = HNRStatus.COMPLIANT ∨
      torrent_task.hr_status = HNRStatus.OVERDUE ∨
      torrent_task.hr_status = HNRStatus.NEEDS_SEEDING) :
    updateHrStatus now site_config torrent_task = torrent_task := by
  have hne : torrent_task.hr_status ≠ HNRStatus.IN_PROGRESS := by
    rcases hstat with h | h | h | h | h <;> simp [h]
  by_cases hha : torrent_task.hit_and_run = false
  · simp [updateHrStatus, hha]
  · simp [updateHrStatus, hha, hne]

/-- Witness for C2: a COMPLIANT task is untouched by the evaluation step even
though its live stats would qualify again. -/
theorem c2_non_in_progress_sticky_witness :
    updateHrStatus 1000 sampleSiteConfig sampleTaskMetZero = sampleTaskMetZero :=
  c2_non_in_progress_sticky 1000 sampleSiteConfig sampleTaskMetZero
    (Or.inr (Or.inr (Or.inl rfl)))

/-! ### Claim C10 -/

/-- Claim C10: when the configured downloader service is not a qbittorrent
instance, tag reconciliation is skipped entirely: the store is returned
unchanged with no added, removed or reset task. -/
theorem c10_skip_non_qbittorrent (tag : String)
    (histories : List (String × TorrentHistory)) (scOf : String → SiteConfig)
    (seeding_torrents_dict : List (String × Torrent)) (torrent_tasks : Store) :
    updateSeedingTasksBasedOnTags false tag histories scOf seeding_torrents_dict
      torrent_tasks = some (torrent_tasks, emptyDiffs) := rfl

/-! ### Claim C9 -/

/-- Claim C9 (amended): configuration validation is enforced only when the
engine is enabled or asked to run once, in which case it fails exactly when
the downloader is unset or duration / deadline-days / ratio is ≤ 0; a
validation failure reports failure to the caller (no exception: every
modelled function is total), clears the runtime configuration (rather than
leaving a last-known-good one in place), and force-disables the engine in the
saved configuration with an operator-facing alert. -/
theorem c9_validation (config : HNRConfigModel) (hnr_config : Option HNRConfigModel)
    (cfg : SavedFlags)
    (henf : config.enabled = true ∨ config.onlyonce = true)
    (hflags : cfg.enabled = true ∨ cfg.onlyonce = true) :
    ((validateConfig config).1 = false ↔
      (config.downloader = "" ∨ config.hr_duration ≤ 0 ∨ config.hr_deadline_days ≤ 0 ∨
        config.hr_ratio_val ≤ 0)) ∧
    (∀ c : HNRConfigModel, c.enabled = false → c.onlyonce = false →
      (validateConfig c).1 = true) ∧
    ((validateConfig config).1 = false →
      (validateAndFixConfig hnr_config (some config)).1 = none ∧
      (validateAndFixConfig hnr_config (some config)).2.1 = false) ∧
    ((updateConfigIfError (some cfg)).1 = some ⟨false, false⟩ ∧
      (updateConfigIfError (some cfg)).2 = true) := by
  have h0 : ¬ (config.enabled = false ∧ config.onlyonce = false) := by
    rcases henf with h | h <;> simp [h]
  refine ⟨?_, ?_, ?_, ?_⟩
  · by_cases h1 : config.downloader = ""
    · simp [validateConfig, h0, h1]
    · by_cases h2 : config.hr_duration ≤ 0
      · simp [validateConfig, h0, h1, h2]
      · by_cases h3 : config.hr_deadline_days ≤ 0
        · simp [validateConfig, h0, h1, h2, h3]
        · by_cases h4 : config.hr_ratio_val ≤ 0
          · simp [validateConfig, h0, h1, h2, h3, h4]
          · simp [validateConfig, h0, h1, h2, h3, h4]
  · intro c hce hco
    simp [validateConfig, hce, hco]
  · intro hfail
    have : (validateConfig config).1 = true ↔ False := by simp [hfail]
    constructor <;> simp [validateAndFixConfig, hfail]
  · rcases hflags with h | h <;> simp [updateConfigIfError, h]

/-- C9 counterexample: with a valid runtime configuration in place, feeding an
invalid configuration (downloader unset) does not leave the last-known-good
runtime configuration in place — `__validate_and_fix_config` clears it to
`None`, contradicting the claim's final conjunct. -/
theorem c9_counterexample :
    (validateConfig sampleBadConfig).1 = false ∧
    (validateAndFixConfig (some sampleGoodConfig) (some sampleBadConfig)).1 = none ∧
    (validateAndFixConfig (some sampleGoodConfig) (some sampleBadConfig)).1 ≠
      some sampleGoodConfig := by
  refine ⟨by decide, by decide, by decide⟩

/-- Witness for C9: the amended statement instantiated at the sample
configurations. -/
theorem c9_validation_witness :
    ((validateConfig sampleBadConfig).1 = false ↔
      (sampleBadConfig.downloader = "" ∨ sampleBadConfig.hr_duration ≤ 0 ∨
        sampleBadConfig.hr_deadline_days ≤ 0 ∨ sampleBadConfig.hr_ratio_val ≤ 0)) ∧
    (∀ c : HNRConfigModel, c.enabled = false → c.onlyonce = false →
      (validateConfig c).1 = true) ∧
    ((validateConfig sampleBadConfig).1 = false →
      (validateAndFixConfig (some sampleGoodConfig) (some sampleBadConfig)).1 = none ∧
      (validateAndFixConfig (some sampleGoodConfig) (some sampleBadConfig)).2.1 = false) ∧
    ((updateConfigIfError (some ⟨true, false⟩)).1 = some ⟨false, false⟩ ∧
      (updateConfigIfError (some ⟨true, false⟩)).2 = true) :=
  c9_validation sampleBadConfig (some sampleGoodConfig) ⟨true, false⟩
    (Or.inl rfl) (Or.inl rfl)

/-! ### Claim C8 -/

/-- Claim C8: for every ingestion event that passes validation (monitored
client, hash and descriptor present, torrent found in the downloader), the
handler persists a `TorrentHistory` record regardless of the obligation
outcome; the task is stored (and the management tag added on the client)
exactly when an obligation applies — the site is in the enabled-site set and
`hit_and_run` is true after initialization — and otherwise the TaskStore is
left unchanged. -/
theorem c8_ingestion (monitored torrent_hash_ok torrent_data_ok torrent_found : Bool)
    (sites : List Nat) (scOf : String → SiteConfig) (store : Store)
    (torrent_task : TorrentTask)
    (hm : monitored = true) (hh : torrent_hash_ok = true) (hd : torrent_data_ok = true)
    (hf : torrent_found = true) :
    (handleDownloadAddedEvent monitored torrent_hash_ok torrent_data_ok torrent_found
        sites scOf store torrent_task).history_saved = true ∧
    ((handleDownloadAddedEvent monitored torrent_hash_ok torrent_data_ok torrent_found
        sites scOf store torrent_task).task_stored = true ↔
      torrent_task.site ∈ sites ∧
        (initHrStatus (scOf torrent_task.site_name) torrent_task).hit_and_run = true) ∧
    ((handleDownloadAddedEvent monitored torrent_hash_ok torrent_data_ok torrent_found
        sites scOf store torrent_task).tag_added =
      (handleDownloadAddedEvent monitored torrent_hash_ok torrent_data_ok torrent_found
        sites scOf store torrent_task).task_stored) ∧
    (¬ (torrent_task.site ∈ sites ∧
        (initHrStatus (scOf torrent_task.site_name) torrent_task).hit_and_run = true) →
      (handleDownloadAddedEvent monitored torrent_hash_ok torrent_data_ok torrent_found
        sites scOf store torrent_task).store = store) := by
  subst hm hh hd hf
  by_cases hsite : torrent_task.site ∈ sites
  · by_cases hhr2 : (initHrStatus (scOf torrent_task.site_name) torrent_task).hit_and_run = false
    · have hne : ¬ (initHrStatus (scOf torrent_task.site_name) torrent_task).hit_and_run = true := by
        simp [hhr2]
      simp [handleDownloadAddedEvent, processEvent, processTorrentTask, hsite, hhr2, hne]
    · have heq : (initHrStatus (scOf torrent_task.site_name) torrent_task).hit_and_run = true := by
        revert hhr2
        cases (initHrStatus (scOf torrent_task.site_name) torrent_task).hit_and_run <;> simp
      simp [handleDownloadAddedEvent, processEvent, processTorrentTask, hsite, hhr2, heq]
  · simp [handleDownloadAddedEvent, processEvent, processTorrentTask, hsite]

/-- Witness for C8: a passing event whose task's site 1 is enabled and whose
obligation applies is stored and tagged, with the history record saved. -/
theorem c8_ingestion_witness :
    (handleDownloadAddedEvent true true true true [1] (fun _ => sampleSiteConfig) []
        sampleTaskInProgress).history_saved = true ∧
    ((handleDownloadAddedEvent true true true true [1] (fun _ => sampleSiteConfig) []
        sampleTaskInProgress).task_stored = true ↔
      sampleTaskInProgress.site ∈ [1] ∧
        (initHrStatus (sampleSiteConfig) sampleTaskInProgress).hit_and_run = true) ∧
    ((handleDownloadAddedEvent true true true true [1] (fun _ => sampleSiteConfig) []
        sampleTaskInProgress).tag_added =
      (handleDownloadAddedEvent true true true true [1] (fun _ => sampleSiteConfig) []
        sampleTaskInProgress).task_stored) ∧
    (¬ (sampleTaskInProgress.site ∈ [1] ∧
        (initHrStatus (sampleSiteConfig) sampleTaskInProgress).hit_and_run = true) →
      (handleDownloadAddedEvent true true true true [1] (fun _ => sampleSiteConfig) []
        sampleTaskInProgress).store = []) :=
  c8_ingestion true true true true [1] (fun _ => sampleSiteConfig) [] sampleTaskInProgress
    rfl rfl rfl rfl

/-! ### Claim C6 -/

theorem truthyTime_eq_true_iff (o : Option ℚ) :
    truthyTime o = true ↔ ∃ m, o = some m ∧ m ≠ 0 := by
  cases o with
  | none => simp [truthyTime]
  | some x => by_cases hx : x = 0 <;> simp [truthyTime, hx]

theorem truthyTime_eq_false_iff (o : Option ℚ) :
    truthyTime o = false ↔ o = none ∨ o = some 0 := by
  cases o with
  | none => simp [truthyTime]
  | some x => by_cases hx : x = 0 <;> simp [truthyTime, hx]

theorem cleanupMatch_iff (thr now : ℚ) (t : TorrentTask) :
    cleanupMatch thr now t = true ↔
      ((t.hr_status = HNRStatus.COMPLIANT ∧
          ∃ m, t.hr_met_time = some m ∧ m ≠ 0 ∧ now - m > thr) ∨
       (t.hr_status = HNRStatus.COMPLIANT ∧
          (t.hr_met_time = none ∨ t.hr_met_time = some 0)) ∨
       (t.deleted = true ∧
          ∃ dt, t.deleted_time = some dt ∧ dt ≠ 0 ∧ now - dt > thr) ∨
       (t.deleted = true ∧ (t.deleted_time = none ∨ t.deleted_time = some 0))) := by
  unfold cleanupMatch
  split_ifs with h1 h2 h3 h4
  · simp only [eq_self_iff_true, true_iff]
    obtain ⟨hc, ht, hg⟩ := h1
    obtain ⟨m, hm, hmne⟩ := (truthyTime_eq_true_iff _).mp ht
    rw [hm] at hg
    simp only [Option.getD_some] at hg
    exact Or.inl ⟨hc, m, hm, hmne, hg⟩
  · simp only [eq_self_iff_true, true_iff]
    exact Or.inr (Or.inl ⟨h2.1, (truthyTime_eq_false_iff _).mp h2.2⟩)
  · simp only [eq_self_iff_true, true_iff]
    obtain ⟨hd, ht, hg⟩ := h3
    obtain ⟨dt, hdt, hdtne⟩ := (truthyTime_eq_true_iff _).mp ht
    rw [hdt] at hg
    simp only [Option.getD_some] at hg
    exact Or.inr (Or.inr (Or.inl ⟨hd, dt, hdt, hdtne, hg⟩))
  · simp only [eq_self_iff_true, true_iff]
    exact Or.inr (Or.inr (Or.inr ⟨h4.1, (truthyTime_eq_false_iff _).mp h4.2⟩))
  · constructor
    · intro hfalse
      exact absurd hfalse (by simp)
    · intro hR
      exfalso
      rcases hR with ⟨hc, m, hm, hmne, hg⟩ | ⟨hc, hun⟩ | ⟨hd, dt, hdt, hdtne, hg⟩ | ⟨hd, hun⟩
      · exact h1 ⟨hc, (truthyTime_eq_true_iff _).mpr ⟨m, hm, hmne⟩, by
          rw [hm]; simpa using hg⟩
      · exact h2 ⟨hc, (truthyTime_eq_false_iff _).mpr hun⟩
      · exact h3 ⟨hd, (truthyTime_eq_true_iff _).mpr ⟨dt, hdt, hdtne⟩, by
          rw [hdt]; simpa using hg⟩
      · exact h4 ⟨hd, (truthyTime_eq_false_iff _).mpr hun⟩

theorem dictLookup_filter_none {α : Type} (p : String × α → Bool)
    (d : List (String × α)) (h : String) (hl : dictLookup d h = none) :
    dictLookup (d.filter p) h = none := by
  induction d with
  | nil => simp [dictLookup]
  | cons kv rest ih =>
    obtain ⟨k, w⟩ := kv
    by_cases hk : k = h
    · simp [dictLookup, hk] at hl
    · simp only [dictLookup, if_neg hk] at hl
      by_cases hp : p (k, w) = true
      · simp [List.filter_cons, hp, dictLookup, hk, ih hl]
      · simp [List.filter_cons, hp, ih hl]

theorem dictLookup_filter {α : Type} (p : String × α → Bool) (d : List (String × α))
    (hnodup : (dictKeys d).Nodup) (h : String) (v : α)
    (hl : dictLookup d h = some v) :
    dictLookup (d.filter p) h = if p (h, v) = true then some v else none := by
  induction d with
  | nil => simp [dictLookup] at hl
  | cons kv rest ih =>
    obtain ⟨k, w⟩ := kv
    simp only [dictKeys, List.map_cons, List.nodup_cons] at hnodup
    by_cases hk : k = h
    · subst hk
      simp only [dictLookup, if_pos rfl] at hl
      obtain rfl : w = v := by injection hl
      have hrest : dictLookup rest k = none :=
        lookup_eq_none_of_not_mem_keys hnodup.1
      by_cases hp : p (k, w) = true
      · simp [List.filter_cons, hp, dictLookup]
      · simp only [List.filter_cons, hp, Bool.false_eq_true, if_neg, if_false]
        rw [dictLookup_filter_none p rest k hrest]
    · simp only [dictLookup, if_neg hk] at hl
      have := ih hnodup.2 hl
      by_cases hp : p (k, w) = true
      · simpa [List.filter_cons, hp, dictLookup, hk] using this
      · simpa [List.filter_cons, hp] using this

/-- Claim C6 (amended): with a retention window > 0, `__auto_cleanup` removes
a task exactly when one of the four retention rules holds, where a zero
timestamp counts as unset (Python falsy): (R1) COMPLIANT with a nonzero
`hr_met_time` older than the window, (R2) COMPLIANT with `hr_met_time` unset
or zero (removed immediately), (R3) deleted with a nonzero deleted-time older
than the window, (R4) deleted with deleted-time unset or zero (removed
immediately).  With window ≤ 0 nothing is removed. -/
theorem c6_cleaner_retention (auto_cleanup_days now : ℚ) (torrent_tasks : Store)
    (hnodup : (dictKeys torrent_tasks).Nodup) :
    (auto_cleanup_days ≤ 0 →
      autoCleanup auto_cleanup_days now torrent_tasks = torrent_tasks) ∧
    (0 < auto_cleanup_days → ∀ h t, dictLookup torrent_tasks h = some t →
      (dictLookup (autoCleanup auto_cleanup_days now torrent_tasks) h = none ↔
        ((t.hr_status = HNRStatus.COMPLIANT ∧
            ∃ m, t.hr_met_time = some m ∧ m ≠ 0 ∧
              now - m > auto_cleanup_days * 86400) ∨
         (t.hr_status = HNRStatus.COMPLIANT ∧
            (t.hr_met_time = none ∨ t.hr_met_time = some 0)) ∨
         (t.deleted = true ∧
            ∃ dt, t.deleted_time = some dt ∧ dt ≠ 0 ∧
              now - dt > auto_cleanup_days * 86400) ∨
         (t.deleted = true ∧
            (t.deleted_time = none ∨ t.deleted_time = some 0))))) := by
  constructor
  · intro hle
    simp [autoCleanup, hle]
  · intro hpos h t hl
    have hnle : ¬ auto_cleanup_days ≤ 0 := not_le.mpr hpos
    rw [← cleanupMatch_iff (auto_cleanup_days * 86400) now t]
    simp only [autoCleanup, if_neg hnle]
    rw [dictLookup_filter _ torrent_tasks hnodup h t hl]
    by_cases hmatch : cleanupMatch (auto_cleanup_days * 86400) now t = true
    · simp [hmatch]
    · simp [hmatch]

/-- C6 counterexample: a COMPLIANT task whose `hr_met_time` is the zero
timestamp.  Per the claim's wording `hr_met_time` is set, `now − hr_met_time`
is within the window and the task is not deleted, so none of R1–R4 applies
and the task should be retained; the code treats the zero timestamp as unset
(Python falsy) and removes it immediately. -/
theorem c6_counterexample :
    (0 : ℚ) < 7 ∧
    dictLookup [("a", sampleTaskMetZero)] "a" = some sampleTaskMetZero ∧
    dictLookup (autoCleanup 7 1000 [("a", sampleTaskMetZero)]) "a" = none ∧
    ¬ specCleanupCond 7 1000 sampleTaskMetZero := by
  refine ⟨by norm_num, rfl, by decide, ?_⟩
  intro hc
  rcases hc with ⟨_, m, hm, hg⟩ | ⟨_, hn⟩ | ⟨hdel, _⟩ | ⟨hdel, _⟩
  · have hm' : some (0 : ℚ) = some m := by
      rw [← hm]
      rfl
    obtain rfl : (0 : ℚ) = m := by injection hm'
    norm_num at hg
  · simp [sampleTaskMetZero, sampleTaskInProgress] at hn
  · simp [sampleTaskMetZero, sampleTaskInProgress] at hdel
  · simp [sampleTaskMetZero, sampleTaskInProgress] at hdel

/-- Witness for C6: with a 7-day window, a COMPLIANT task met 8 days ago is
removed (and, by the same theorem, one met 6 days ago fails every rule and is
retained). -/
theorem c6_cleaner_retention_witness :
    dictLookup (autoCleanup 7 (8 * 86400) [("a", sampleTaskMetOne)]) "a" = none := by
  have h := (c6_cleaner_retention 7 (8 * 86400) [("a", sampleTaskMetOne)]
    (by decide)).2 (by norm_num) "a" sampleTaskMetOne rfl
  refine h.mpr (Or.inl ⟨rfl, 1, rfl, by norm_num, by norm_num⟩)

/-! ### Claim C5 -/

theorem foldl_markDeletedStep_not_mem (now : ℚ) (L : List String) (store : Store)
    (h : String) (hm : h ∉ L) :
    dictLookup (L.foldl (markDeletedStep now) store) h = dictLookup store h := by
  induction L generalizing store with
  | nil => rfl
  | cons a L ih =>
    simp only [List.mem_cons, not_or] at hm
    simp only [List.foldl_cons]
    rw [ih _ hm.2]
    unfold markDeletedStep
    rcases hla : dictLookup store a with _ | t
    · rfl
    · exact dictLookup_set_ne store a h _ hm.1

theorem foldl_markDeletedStep_lookup (now : ℚ) (L : List String) (hnd : L.Nodup)
    (store : Store) (h : String) :
    dictLookup (L.foldl (markDeletedStep now) store) h =
      if h ∈ L then
        match dictLookup store h with
        | none => none
        | some t => some { t with deleted := true, deleted_time := some now }
      else dictLookup store h := by
  induction L generalizing store with
  | nil => simp
  | cons a L ih =>
    simp only [List.nodup_cons] at hnd
    simp only [List.foldl_cons]
    by_cases hha : h = a
    · subst hha
      rw [foldl_markDeletedStep_not_mem now L _ h hnd.1]
      unfold markDeletedStep
      rcases hla : dictLookup store h with _ | t
      · simp [hla]
      · simp [dictLookup_set_self, hla]
    · have hstep : dictLookup (markDeletedStep now store a) h = dictLookup store h := by
        unfold markDeletedStep
        rcases hla : dictLookup store a with _ | t
        · rfl
        · exact dictLookup_set_ne store a h _ hha
      rw [ih hnd.2, hstep]
      simp [List.mem_cons, hha]

theorem lookup_buildSnapDict_hash (seeding_torrents : List Torrent) (h : String)
    (tor : Torrent) (hl : dictLookup (buildSnapDict seeding_torrents) h = some tor) :
    tor.hash = h := by
  induction seeding_torrents with
  | nil => simp [buildSnapDict, dictLookup] at hl
  | cons t l ih =>
    simp only [buildSnapDict, List.map_cons, dictLookup] at hl
    by_cases hk : t.hash = h
    · rw [if_pos hk] at hl
      obtain rfl : t = tor := by injection hl
      exact hk
    · rw [if_neg hk] at hl
      exact ih hl

theorem mem_checkTorrents_hashes_iff (seeding_torrents : List Torrent)
    (torrent_check_hashes : List String) (h : String) :
    h ∈ (checkTorrentsOf (buildSnapDict seeding_torrents) torrent_check_hashes).map
        Torrent.hash ↔
      (h ∈ torrent_check_hashes ∧
        ∃ tor, dictLookup (buildSnapDict seeding_torrents) h = some tor) := by
  constructor
  · intro hm
    simp only [List.mem_map] at hm
    obtain ⟨tor, htor, rfl⟩ := hm
    simp only [checkTorrentsOf, List.mem_filterMap] at htor
    obtain ⟨h', hh', hl⟩ := htor
    have heq := lookup_buildSnapDict_hash _ _ _ hl
    rw [heq]
    exact ⟨hh', tor, hl⟩
  · rintro ⟨hmem, tor, hl⟩
    refine List.mem_map.mpr ⟨tor, ?_, lookup_buildSnapDict_hash _ _ _ hl⟩
    exact List.mem_filterMap.mpr ⟨h, hmem, hl⟩

/-- Claim C5: a hash present in TaskStore but absent from the full torrent
snapshot reported by the client, whose task is not yet marked deleted, has
its task marked deleted with the deleted timestamp recorded; tasks already
marked deleted, and tasks present in the snapshot, are returned unchanged.
Stated at the call site of `check`: the check hashes are the store keys and
the torrents passed in are the snapshot entries restricted to those keys. -/
theorem c5_missing_marked_deleted (now : ℚ) (seeding_torrents : List Torrent)
    (torrent_tasks : Store) (hnodup : (dictKeys torrent_tasks).Nodup)
    (h : String) (t : TorrentTask)
    (hlook : dictLookup torrent_tasks h = some t) :
    dictLookup
      (updateUndeletedTorrentsMissingInDownloader now torrent_tasks
        (dictKeys torrent_tasks)
        (checkTorrentsOf (buildSnapDict seeding_torrents) (dictKeys torrent_tasks))) h =
      (if dictLookup (buildSnapDict seeding_torrents) h = none ∧ t.deleted = false
       then some { t with deleted := true, deleted_time := some now }
       else some t) := by
  simp only [updateUndeletedTorrentsMissingInDownloader]
  have hndL : (((dictKeys torrent_tasks).filter (fun k =>
      k ∉ (checkTorrentsOf (buildSnapDict seeding_torrents)
        (dictKeys torrent_tasks)).map Torrent.hash)).filter (fun k =>
          match dictLookup torrent_tasks k with
          | some u => !u.deleted
          | none => false)).Nodup :=
    (hnodup.filter _).filter _
  rw [foldl_markDeletedStep_lookup now _ hndL torrent_tasks h]
  have hmem_iff : (h ∈ ((dictKeys torrent_tasks).filter (fun k =>
      k ∉ (checkTorrentsOf (buildSnapDict seeding_torrents)
        (dictKeys torrent_tasks)).map Torrent.hash)).filter (fun k =>
          match dictLookup torrent_tasks k with
          | some u => !u.deleted
          | none => false)) ↔
      (dictLookup (buildSnapDict seeding_torrents) h = none ∧ t.deleted = false) := by
    rw [List.mem_filter, List.mem_filter]
    constructor
    · rintro ⟨⟨hkeys, hnot⟩, hpred⟩
      rw [hlook] at hpred
      simp only [Bool.not_eq_true'] at hpred
      constructor
      · rcases hsnap : dictLookup (buildSnapDict seeding_torrents) h with _ | tor
        · rfl
        · exfalso
          have : h ∈ (checkTorrentsOf (buildSnapDict seeding_torrents)
              (dictKeys torrent_tasks)).map Torrent.hash :=
            (mem_checkTorrents_hashes_iff _ _ _).mpr
              ⟨mem_dictKeys_of_lookup hlook, tor, hsnap⟩
          simp [this] at hnot
      · exact hpred
    · rintro ⟨hsnap, hdel⟩
      refine ⟨⟨mem_dictKeys_of_lookup hlook, ?_⟩, ?_⟩
      · simp only [decide_not]
        rw [Bool.not_eq_eq_eq_not]
        simp only [Bool.not_true]
        rw [decide_eq_false_iff_not]
        intro habs
        obtain ⟨-, tor, hl⟩ := (mem_checkTorrents_hashes_iff _ _ _).mp habs
        rw [hsnap] at hl
        exact Option.noConfusion hl
      · rw [hlook]
        simp [hdel]
  by_cases hcond : dictLookup (buildSnapDict seeding_torrents) h = none ∧ t.deleted = false
  · rw [if_pos (hmem_iff.mpr hcond), if_pos hcond, hlook]
  · rw [if_neg (fun hm => hcond (hmem_iff.mp hm)), if_neg hcond]
    exact hlook

/-- Witness for C5: store with tasks "a" (present in the snapshot) and "b"
(missing): "b" is marked deleted at time 99, "a" is untouched. -/
theorem c5_missing_marked_deleted_witness :
    dictLookup
      (updateUndeletedTorrentsMissingInDownloader 99
        [("h1", sampleTaskInProgress), ("b", { sampleTaskInProgress with hash := "b" })]
        (dictKeys [("h1", sampleTaskInProgress),
          ("b", { sampleTaskInProgress with hash := "b" })])
        (checkTorrentsOf (buildSnapDict [sampleTorrentNoTag])
          (dictKeys [("h1", sampleTaskInProgress),
            ("b", { sampleTaskInProgress with hash := "b" })]))) "b" =
      some { { sampleTaskInProgress with hash := "b" } with
              deleted := true, deleted_time := some 99 } := by
  have h := c5_missing_marked_deleted 99 [sampleTorrentNoTag]
    [("h1", sampleTaskInProgress), ("b", { sampleTaskInProgress with hash := "b" })]
    (by decide) "b" { sampleTaskInProgress with hash := "b" } rfl
  rw [h]
  rw [if_pos ⟨by decide, rfl⟩]

/-! ### Tag reconciliation lemmas (claims C3, C4, C7) -/

theorem syncStep_some_cases (tag : String) (conv : Torrent → Option TorrentTask)
    (store : Store) (diffs : SyncDiffs) (k : String) (tor : Torrent)
    (out : Store × SyncDiffs)
    (hstep : syncStep tag conv (store, diffs) (k, tor) = some out) :
    dictLookup out.1 k = syncKeyResult tag conv (dictLookup store k) tor ∧
    (∀ h, h ≠ k → dictLookup out.1 h = dictLookup store h) ∧
    (tag ∈ tor.tags → dictLookup store k = none → conv tor ≠ none) := by
  by_cases htag : tag ∈ tor.tags
  · rcases hl : dictLookup store k with _ | t
    · rcases hc : conv tor with _ | u
      · simp [syncStep, htag, hl, hc] at hstep
      · simp only [syncStep, htag, if_true, hl, hc, Option.some.injEq, if_pos] at hstep
        subst hstep
        refine ⟨?_, ?_, ?_⟩
        · simp [syncKeyResult, htag, hc, dictLookup_set_self]
        · intro h hne
          exact dictLookup_set_ne store k h u hne
        · intro _ _
          simp [hc]
    · by_cases hdel : t.deleted
      · simp only [syncStep, htag, if_true, hl, hdel, Option.some.injEq, if_pos] at hstep
        subst hstep
        refine ⟨?_, ?_, ?_⟩
        · simp [syncKeyResult, htag, hdel, dictLookup_set_self]
        · intro h hne
          exact dictLookup_set_ne store k h _ hne
        · intro _ habs
          exact Option.noConfusion habs
      · simp only [syncStep, htag, if_true, hl, hdel, Option.some.injEq, if_neg,
          Bool.not_eq_true] at hstep
        subst hstep
        refine ⟨?_, fun h hne => rfl, ?_⟩
        · simp [syncKeyResult, htag, hl, hdel]
        · intro _ habs
          exact Option.noConfusion habs
  · rcases hl : dictLookup store k with _ | t
    · simp only [syncStep, htag, if_false, hl, Option.some.injEq] at hstep
      subst hstep
      refine ⟨?_, fun h hne => rfl, fun ht => absurd ht htag⟩
      simp [syncKeyResult, htag, hl]
    · by_cases hcompl : t.hr_status = HNRStatus.COMPLIANT
      · simp only [syncStep, htag, if_false, hl, hcompl, Option.some.injEq, if_pos] at hstep
        subst hstep
        refine ⟨?_, fun h hne => rfl, fun ht => absurd ht htag⟩
        simp [syncKeyResult, htag, hl, hcompl]
      · simp only [syncStep, htag, if_false, hl, hcompl, Option.some.injEq, if_neg] at hstep
        subst hstep
        refine ⟨?_, ?_, fun ht => absurd ht htag⟩
        · simp [syncKeyResult, htag, hl, hcompl, dictLookup_erase_self]
        · intro h hne
          exact dictLookup_erase_ne store k h hne

theorem syncLoop_lookup_not_mem (tag : String) (conv : Torrent → Option TorrentTask)
    (entries : List (String × Torrent)) (acc out : Store × SyncDiffs)
    (hrun : syncLoop tag conv entries acc = some out) (h : String)
    (hnm : h ∉ entries.map Prod.fst) :
    dictLookup out.1 h = dictLookup acc.1 h := by
  induction entries generalizing acc with
  | nil =>
    simp only [syncLoop, Option.some.injEq] at hrun
    rw [← hrun]
  | cons e rest ih =>
    obtain ⟨k, tor⟩ := e
    simp only [List.map_cons, List.mem_cons, not_or] at hnm
    simp only [syncLoop] at hrun
    rcases hstep : syncStep tag conv acc (k, tor) with _ | acc'
    · rw [hstep] at hrun
      exact absurd hrun (by simp)
    · rw [hstep] at hrun
      obtain ⟨store, diffs⟩ := acc
      have hcases := syncStep_some_cases tag conv store diffs k tor acc' hstep
      rw [ih acc' hrun hnm.2]
      exact hcases.2.1 h hnm.1

theorem syncLoop_char (tag : String) (conv : Torrent → Option TorrentTask)
    (entries : List (String × Torrent)) (acc out : Store × SyncDiffs)
    (hnd : (entries.map Prod.fst).Nodup)
    (hrun : syncLoop tag conv entries acc = some out) :
    ∀ k tor, (k, tor) ∈ entries →
      dictLookup out.1 k = syncKeyResult tag conv (dictLookup acc.1 k) tor ∧
      (tag ∈ tor.tags → dictLookup acc.1 k = none → conv tor ≠ none) := by
  induction entries generalizing acc with
  | nil =>
    intro k tor hmem
    simp at hmem
  | cons e rest ih =>
    obtain ⟨k₀, tor₀⟩ := e
    simp only [List.map_cons, List.nodup_cons] at hnd
    simp only [syncLoop] at hrun
    rcases hstep : syncStep tag conv acc (k₀, tor₀) with _ | acc'
    · rw [hstep] at hrun
      exact absurd hrun (by simp)
    · rw [hstep] at hrun
      intro k tor hmem
      obtain ⟨store, diffs⟩ := acc
      have hcases := syncStep_some_cases tag conv store diffs k₀ tor₀ acc' hstep
      rcases List.mem_cons.mp hmem with heq | hrest
      · injection heq with h1 h2
        subst h1
        subst h2
        constructor
        · rw [syncLoop_lookup_not_mem tag conv rest acc' out hrun k hnd.1]
          exact hcases.1
        · exact hcases.2.2
      · have hk : k ≠ k₀ := by
          intro hkk
          subst hkk
          exact hnd.1 (List.mem_map.mpr ⟨(k, tor), hrest, rfl⟩)
        have hlk : dictLookup acc'.1 k = dictLookup store k := hcases.2.1 k hk
        have hres := ih acc' hnd.2 hrun k tor hrest
        rw [hlk] at hres
        exact hres

theorem syncStep_id_of_stable (tag : String) (conv : Torrent → Option TorrentTask)
    (S : Store) (k : String) (tor : Torrent) (old : Option TorrentTask)
    (hconvdel : ∀ tor' u, conv tor' = some u → u.deleted = false)
    (hS : dictLookup S k = syncKeyResult tag conv old tor)
    (hc : tag ∈ tor.tags → old = none → conv tor ≠ none) :
    ∀ d, syncStep tag conv (S, d) (k, tor) = some (S, d) := by
  intro d
  by_cases htag : tag ∈ tor.tags
  · rcases old with _ | t
    · have hcv := hc htag rfl
      rcases hcc : conv tor with _ | u
      · exact absurd hcc hcv
      · have hu := hconvdel tor u hcc
        have hSk : dictLookup S k = some u := by
          rw [hS]
          simp [syncKeyResult, htag, hcc]
        simp [syncStep, htag, hSk, hu]
    · by_cases hdel : t.deleted
      · have hSk : dictLookup S k = some { t with deleted := false } := by
          rw [hS]
          simp [syncKeyResult, htag, hdel]
        simp [syncStep, htag, hSk]
      · have hSk : dictLookup S k = some t := by
          rw [hS]
          simp [syncKeyResult, htag, hdel]
        simp [syncStep, htag, hSk, hdel]
  · rcases old with _ | t
    · have hSk : dictLookup S k = none := by
        rw [hS]
        simp [syncKeyResult, htag]
      simp [syncStep, htag, hSk]
    · by_cases hcompl : t.hr_status = HNRStatus.COMPLIANT
      · have hSk : dictLookup S k = some t := by
          rw [hS]
          simp [syncKeyResult, htag, hcompl]
        simp [syncStep, htag, hSk, hcompl]
      · have hSk : dictLookup S k = none := by
          rw [hS]
          simp [syncKeyResult, htag, hcompl]
        simp [syncStep, htag, hSk]

theorem syncLoop_id (tag : String) (conv : Torrent → Option TorrentTask)
    (entries : List (String × Torrent)) (S : Store) (d : SyncDiffs)
    (hid : ∀ e ∈ entries, ∀ d', syncStep tag conv (S, d') e = some (S, d')) :
    syncLoop tag conv entries (S, d) = some (S, d) := by
  induction entries generalizing d with
  | nil => rfl
  | cons e rest ih =>
    simp only [syncLoop, hid e (List.mem_cons_self e rest) d]
    exact ih d (fun e' he' d' => hid e' (List.mem_cons_of_mem e he') d')

theorem initHrStatus_deleted (site_config : SiteConfig) (torrent_task : TorrentTask) :
    (initHrStatus site_config torrent_task).deleted = torrent_task.deleted := by
  unfold initHrStatus
  by_cases ha : site_config.hr_active <;>
    by_cases hh : torrent_task.hit_and_run <;> simp [ha, hh]

theorem convertTorrentInfoToTask_deleted (histories : List (String × TorrentHistory))
    (scOf : String → SiteConfig) (torrent : Torrent) (u : TorrentTask)
    (hc : convertTorrentInfoToTask histories scOf torrent = some u) :
    u.deleted = false := by
  unfold convertTorrentInfoToTask at hc
  by_cases hh : torrent.hash = ""
  · simp [hh] at hc
  · simp only [hh, if_false] at hc
    rcases hhist : dictLookup histories torrent.hash with _ | hist
    · rw [hhist] at hc
      rcases hsn : torrent.site_name with _ | sn
      · rw [hsn] at hc
        simp at hc
      · rw [hsn] at hc
        simp only [Option.some.injEq] at hc
        rw [← hc, initHrStatus_deleted]
    · rw [hhist] at hc
      simp only [Option.some.injEq] at hc
      rw [← hc, initHrStatus_deleted]
      simp [torrentTaskOfHistory]

/-- Claim C3: a torrent present in the client snapshot without the management
tag whose hash has a TaskStore entry has that entry removed by tag
reconciliation, unless the entry's status is already COMPLIANT, in which case
the entry is kept unchanged. -/
theorem c3_untagged_removal (tag : String) (histories : List (String × TorrentHistory))
    (scOf : String → SiteConfig) (seeding_torrents_dict : List (String × Torrent))
    (torrent_tasks S : Store) (d : SyncDiffs)
    (hnd : (seeding_torrents_dict.map Prod.fst).Nodup)
    (hrun : updateSeedingTasksBasedOnTags true tag histories scOf seeding_torrents_dict
      torrent_tasks = some (S, d))
    (k : String) (tor : Torrent) (t : TorrentTask)
    (hmem : (k, tor) ∈ seeding_torrents_dict) (htag : tag ∉ tor.tags)
    (hlook : dictLookup torrent_tasks k = some t) :
    (t.hr_status = HNRStatus.COMPLIANT → dictLookup S k = some t) ∧
    (t.hr_status ≠ HNRStatus.COMPLIANT → dictLookup S k = none) := by
  have hrun' : syncLoop tag (convertTorrentInfoToTask histories scOf)
      seeding_torrents_dict (torrent_tasks, emptyDiffs) = some (S, d) := by
    simpa [updateSeedingTasksBasedOnTags] using hrun
  have hchar := (syncLoop_char tag (convertTorrentInfoToTask histories scOf)
    seeding_torrents_dict (torrent_tasks, emptyDiffs) (S, d) hnd hrun' k tor hmem).1
  rw [show ((torrent_tasks, emptyDiffs) : Store × SyncDiffs).1 = torrent_tasks from rfl,
    hlook] at hchar
  constructor
  · intro hcs
    rw [hchar]
    simp [syncKeyResult, htag, hcs]
  · intro hcs
    rw [hchar]
    simp [syncKeyResult, htag, hcs]

/-- Witness for C3: a non-COMPLIANT tracked task whose torrent lost the tag is
removed by the reconciliation run (the resulting store is empty). -/
theorem c3_untagged_removal_witness :
    sampleTaskInProgress.hr_status ≠ HNRStatus.COMPLIANT ∧
    dictLookup ([] : Store) "h1" = none := by
  refine ⟨by decide, ?_⟩
  exact (c3_untagged_removal "HR" [] (fun _ => sampleSiteConfig)
    [("h1", sampleTorrentNoTag)] [("h1", sampleTaskInProgress)] []
    ⟨[], [], [sampleTaskInProgress]⟩ (by decide) (by decide) "h1" sampleTorrentNoTag
    sampleTaskInProgress (by simp) (by decide) rfl).2 (by decide)

/-- Claim C4: running tag reconciliation a second time against the same
unchanged client snapshot, starting from the store produced by the first run,
succeeds, produces no diffs (nothing added, removed or reset) and returns the
first run's store unchanged. -/
theorem c4_sync_idempotent (tag : String) (histories : List (String × TorrentHistory))
    (scOf : String → SiteConfig) (seeding_torrents_dict : List (String × Torrent))
    (torrent_tasks S1 : Store) (d1 : SyncDiffs)
    (hnd : (seeding_torrents_dict.map Prod.fst).Nodup)
    (h1 : updateSeedingTasksBasedOnTags true tag histories scOf seeding_torrents_dict
      torrent_tasks = some (S1, d1)) :
    updateSeedingTasksBasedOnTags true tag histories scOf seeding_torrents_dict S1 =
      some (S1, emptyDiffs) := by
  have h1' : syncLoop tag (convertTorrentInfoToTask histories scOf)
      seeding_torrents_dict (torrent_tasks, emptyDiffs) = some (S1, d1) := by
    simpa [updateSeedingTasksBasedOnTags] using h1
  have hid : ∀ e ∈ seeding_torrents_dict, ∀ d',
      syncStep tag (convertTorrentInfoToTask histories scOf) (S1, d') e =
        some (S1, d') := by
    rintro ⟨k, tor⟩ hmem d'
    have hchar := syncLoop_char tag (convertTorrentInfoToTask histories scOf)
      seeding_torrents_dict (torrent_tasks, emptyDiffs) (S1, d1) hnd h1' k tor hmem
    exact syncStep_id_of_stable tag (convertTorrentInfoToTask histories scOf) S1 k tor
      (dictLookup torrent_tasks k)
      (fun tor' u hc => convertTorrentInfoToTask_deleted histories scOf tor' u hc)
      hchar.1 hchar.2 d'
  have hloop := syncLoop_id tag (convertTorrentInfoToTask histories scOf)
    seeding_torrents_dict S1 emptyDiffs hid
  simpa [updateSeedingTasksBasedOnTags] using hloop

/-- Witness for C4: a first run that adds a tagged untracked torrent; the
second run over the same snapshot is a no-op with empty diffs. -/
theorem c4_sync_idempotent_witness :
    updateSeedingTasksBasedOnTags true "HR" [] (fun _ => sampleSiteConfig)
      [("h1", sampleTorrentTag)] sampleC4Store = some (sampleC4Store, emptyDiffs) :=
  c4_sync_idempotent "HR" [] (fun _ => sampleSiteConfig) [("h1", sampleTorrentTag)]
    [] sampleC4Store ⟨[sampleAddedTask], [], []⟩ (by decide) (by decide)

/-! ### Claim C7 -/

theorem foldl_preserves_isSome {β : Type} (f : Store → β → Store)
    (hf : ∀ s b k, (dictLookup s k).isSome = true → (dictLookup (f s b) k).isSome = true)
    (L : List β) (store : Store) (k : String)
    (hs : (dictLookup store k).isSome = true) :
    (dictLookup (L.foldl f store) k).isSome = true := by
  induction L generalizing store with
  | nil => exact hs
  | cons b L ih => exact ih _ (hf store b k hs)

theorem dictSet_preserves_isSome (s : Store) (b k : String) (v : TorrentTask)
    (hs : (dictLookup s k).isSome = true) :
    (dictLookup (dictSet s b v) k).isSome = true := by
  by_cases hk : k = b
  · subst hk
    rw [dictLookup_set_self]
    rfl
  · rw [dictLookup_set_ne s b k v hk]
    exact hs

theorem dictLookup_map_isSome (F : String × TorrentTask → TorrentTask) (d : Store)
    (k : String) :
    (dictLookup (d.map (fun kv => (kv.1, F kv))) k).isSome =
      (dictLookup d k).isSome := by
  induction d with
  | nil => rfl
  | cons kv rest ih =>
    obtain ⟨k₀, v⟩ := kv
    by_cases hk : k₀ = k <;> simp [dictLookup, hk, ih]

/-- C7 counterexample: the tag-reconciliation step of the check cycle — not
the Cleaner — removes a tracked, non-COMPLIANT task whose torrent no longer
carries the management tag, so removal does not happen only through the
Cleaner's retention rules. -/
theorem c7_counterexample :
    dictLookup [("h1", sampleTaskInProgress)] "h1" = some sampleTaskInProgress ∧
    sampleTaskInProgress.hr_status ≠ HNRStatus.COMPLIANT ∧
    updateSeedingTasksBasedOnTags true "HR" [] (fun _ => sampleSiteConfig)
        [("h1", sampleTorrentNoTag)] [("h1", sampleTaskInProgress)] =
      some ([], ⟨[], [], [sampleTaskInProgress]⟩) :=
  ⟨rfl, by decide, by decide⟩

/-- Claim C7 (amended): a task leaves the TaskStore only through the Cleaner's
retention rules or through tag reconciliation's tag-driven removal (torrent in
the snapshot without the management tag and the entry not COMPLIANT); the
other steps — missing-torrent marking, live-stat refresh, per-task status
evaluation, and ingestion's store update — never remove an entry. -/
theorem c7_removal_paths :
    (∀ (now : ℚ) (torrent_tasks : Store) (torrent_check_hashes : List String)
        (torrents : List Torrent) (h : String) (t : TorrentTask),
      dictLookup torrent_tasks h = some t →
      ∃ t', dictLookup (updateUndeletedTorrentsMissingInDownloader now torrent_tasks
        torrent_check_hashes torrents) h = some t') ∧
    (∀ (torrents : List Torrent) (torrent_tasks : Store) (h : String) (t : TorrentTask),
      dictLookup torrent_tasks h = some t →
      ∃ t', dictLookup (updateTorrentTasksState torrents torrent_tasks) h = some t') ∧
    (∀ (now : ℚ) (scOf : String → SiteConfig) (torrent_tasks : Store) (h : String)
        (t : TorrentTask),
      dictLookup torrent_tasks h = some t →
      ∃ t', dictLookup (updateHrStatusAll now scOf torrent_tasks) h = some t') ∧
    (∀ (sites : List Nat) (scOf : String → SiteConfig) (store : Store)
        (task : TorrentTask) (h : String) (u : TorrentTask),
      dictLookup store h = some u →
      ∃ u', dictLookup (processTorrentTask sites scOf store task).1 h = some u') ∧
    (∀ (tag : String) (histories : List (String × TorrentHistory))
        (scOf : String → SiteConfig) (seeding_torrents_dict : List (String × Torrent))
        (torrent_tasks S : Store) (d : SyncDiffs),
      (seeding_torrents_dict.map Prod.fst).Nodup →
      updateSeedingTasksBasedOnTags true tag histories scOf seeding_torrents_dict
        torrent_tasks = some (S, d) →
      ∀ (h : String) (t : TorrentTask), dictLookup torrent_tasks h = some t →
        dictLookup S h = none →
        ∃ tor, (h, tor) ∈ seeding_torrents_dict ∧ tag ∉ tor.tags ∧
          t.hr_status ≠ HNRStatus.COMPLIANT) := by
  refine ⟨?_, ?_, ?_, ?_, ?_⟩
  · intro now torrent_tasks torrent_check_hashes torrents h t hl
    have hsome : (dictLookup (updateUndeletedTorrentsMissingInDownloader now torrent_tasks
        torrent_check_hashes torrents) h).isSome = true := by
      simp only [updateUndeletedTorrentsMissingInDownloader]
      refine foldl_preserves_isSome (markDeletedStep now) ?_ _ torrent_tasks h
        (by simp [hl])
      intro s b k hs
      unfold markDeletedStep
      rcases hb : dictLookup s b with _ | v
      · exact hs
      · exact dictSet_preserves_isSome s b k _ hs
    exact Option.isSome_iff_exists.mp hsome
  · intro torrents torrent_tasks h t hl
    have hsome : (dictLookup (updateTorrentTasksState torrents torrent_tasks) h).isSome
        = true := by
      simp only [updateTorrentTasksState]
      refine foldl_preserves_isSome _ ?_ torrents torrent_tasks h (by simp [hl])
      intro s tor k hs
      rcases hb : dictLookup s tor.hash with _ | v
      · simpa [hb] using hs
      · simp only [hb]
        exact dictSet_preserves_isSome s tor.hash k _ hs
    exact Option.isSome_iff_exists.mp hsome
  · intro now scOf torrent_tasks h t hl
    have hsome : (dictLookup (updateHrStatusAll now scOf torrent_tasks) h).isSome
        = true := by
      unfold updateHrStatusAll
      rw [dictLookup_map_isSome (fun kv => updateHrStatus now (scOf kv.2.site_name) kv.2)]
      simp [hl]
    exact Option.isSome_iff_exists.mp hsome
  · intro sites scOf store task h u hl
    unfold processTorrentTask
    by_cases hsite : task.site ∉ sites
    · simp only [hsite, if_pos]
      exact ⟨u, hl⟩
    · simp only [hsite, if_neg, not_false_iff]
      by_cases hhr : (initHrStatus (scOf task.site_name) task).hit_and_run = false
      · simp only [hhr, if_pos]
        exact ⟨u, hl⟩
      · simp only [hhr, if_neg]
        have := dictSet_preserves_isSome store
          (initHrStatus (scOf task.site_name) task).hash h
          (initHrStatus (scOf task.site_name) task) (by simp [hl])
        exact Option.isSome_iff_exists.mp this
  · intro tag histories scOf seeding_torrents_dict torrent_tasks S d hnd hrun h t hl hnone
    have hrun' : syncLoop tag (convertTorrentInfoToTask histories scOf)
        seeding_torrents_dict (torrent_tasks, emptyDiffs) = some (S, d) := by
      simpa [updateSeedingTasksBasedOnTags] using hrun
    by_cases hmem : h ∈ seeding_torrents_dict.map Prod.fst
    · have hmemk : h ∈ dictKeys seeding_torrents_dict := hmem
      obtain ⟨tor, hpair⟩ := exists_pair_of_mem_dictKeys hmemk
      have hchar := (syncLoop_char tag (convertTorrentInfoToTask histories scOf)
        seeding_torrents_dict (torrent_tasks, emptyDiffs) (S, d) hnd hrun' h tor hpair).1
      rw [show ((torrent_tasks, emptyDiffs) : Store × SyncDiffs).1 = torrent_tasks from rfl,
        hl] at hchar
      rw [hnone] at hchar
      by_cases htag : tag ∈ tor.tags
      · exfalso
        simp only [syncKeyResult, htag, if_pos] at hchar
        by_cases hdel : t.deleted <;> simp [hdel] at hchar
      · by_cases hcompl : t.hr_status = HNRStatus.COMPLIANT
        · exfalso
          simp [syncKeyResult, htag, hcompl] at hchar
        · exact ⟨tor, hpair, htag, hcompl⟩
    · exfalso
      have := syncLoop_lookup_not_mem tag (convertTorrentInfoToTask histories scOf)
        seeding_torrents_dict (torrent_tasks, emptyDiffs) (S, d) hrun' h hmem
      rw [show ((S, d) : Store × SyncDiffs).1 = S from rfl, hnone,
        show ((torrent_tasks, emptyDiffs) : Store × SyncDiffs).1 = torrent_tasks from rfl,
        hl] at this
      exact Option.noConfusion this

/-- Witness for C7: each conjunct of the amended statement instantiated at a
concrete store, including the characterisation of the one non-Cleaner removal
path on the concrete run that removes task "h1". -/
theorem c7_removal_paths_witness :
    (∃ t', dictLookup (updateUndeletedTorrentsMissingInDownloader 99
      [("a", sampleTaskInProgress)] ["a"] []) "a" = some t') ∧
    (∃ t', dictLookup (updateTorrentTasksState [sampleTorrentNoTag]
      [("h1", sampleTaskInProgress)]) "h1" = some t') ∧
    (∃ t', dictLookup (updateHrStatusAll 50 (fun _ => sampleSiteConfig)
      [("h1", sampleTaskInProgress)]) "h1" = some t') ∧
    (∃ u', dictLookup (processTorrentTask [1] (fun _ => sampleSiteConfig)
      [("x", sampleTaskMetOne)] sampleTaskInProgress).1 "x" = some u') ∧
    (∃ tor, ("h1", tor) ∈ [("h1", sampleTorrentNoTag)] ∧ "HR" ∉ tor.tags ∧
      sampleTaskInProgress.hr_status ≠ HNRStatus.COMPLIANT) := by
  obtain ⟨p1, p2, p3, p4, p5⟩ := c7_removal_paths
  refine ⟨p1 99 _ ["a"] [] "a" sampleTaskInProgress rfl,
    p2 [sampleTorrentNoTag] _ "h1" sampleTaskInProgress rfl,
    p3 50 _ _ "h1" sampleTaskInProgress rfl,
    p4 [1] _ _ sampleTaskInProgress "x" sampleTaskMetOne rfl,
    p5 "HR" [] (fun _ => sampleSiteConfig) [("h1", sampleTorrentNoTag)]
      [("h1", sampleTaskInProgress)] [] ⟨[], [], [sampleTaskInProgress]⟩
      (by decide) (by decide) "h1" sampleTaskInProgress rfl rfl⟩
